import Mathlib

/-!
Verification of the reconciliation engine of `somnia-eathquake-alerts`.

The definitions below are a shallow embedding of the final iteration of
`src/hooks/useEarthquakes.ts` (the version using a `currentIndex` cursor,
a `getAtIndex` bundled ethCall and a `getBetweenRange` catch-up) together
with `src/lib/earthquake-encoding.ts`.  JavaScript numbers are modelled as
exact rationals (the claims under study quantify only over values on the
decimal grids where the scaling arithmetic is exact), bigints as naturals,
and each fallible RPC / codec call is modelled by an `Option`-valued input
describing its outcome.
-/

namespace EarthquakeAlerts

/-- The `Earthquake` record from `src/types/earthquake.ts`. -/
structure Earthquake where
  earthquakeId : String
  location : String
  magnitude : ℚ
  depth : ℚ
  latitude : ℚ
  longitude : ℚ
  timestamp : ℤ
  url : String
deriving DecidableEq

/-- `array.sort((a, b) => b.timestamp - a.timestamp)`: stable sort by
timestamp descending (ECMAScript `Array.prototype.sort` is stable, as is
`List.mergeSort`). -/
def sortByTimestampDesc (l : List Earthquake) : List Earthquake :=
  l.mergeSort (fun a b => decide (b.timestamp ≤ a.timestamp))

/-- The merge step shared by the catch-up reconciler and the batch
notification handler:

```
const existingIds = new Set(currentEarthquakes.map(q => q.earthquakeId))
const newQuakes = batch.filter(q => !existingIds.has(q.earthquakeId))
if (newQuakes.length > 0) {
  currentEarthquakes = [...currentEarthquakes, ...newQuakes]
    .sort((a, b) => b.timestamp - a.timestamp)
}
```

Returns the new store and the genuinely-new subset. -/
def mergeQuakes (store batch : List Earthquake) : List Earthquake × List Earthquake :=
  let existingIds := store.map Earthquake.earthquakeId
  let newQuakes := batch.filter (fun q => decide (q.earthquakeId ∉ existingIds))
  if 0 < newQuakes.length then
    (sortByTimestampDesc (store ++ newQuakes), newQuakes)
  else
    (store, newQuakes)

theorem mem_sortByTimestampDesc {q : Earthquake} {l : List Earthquake} :
    q ∈ sortByTimestampDesc l ↔ q ∈ l :=
  (List.mergeSort_perm l _).mem_iff

theorem sortByTimestampDesc_perm (l : List Earthquake) :
    (sortByTimestampDesc l).Perm l :=
  List.mergeSort_perm l _

/-- Every id occurring in the batch occurs in the merged store. -/
theorem mem_ids_mergeQuakes {store batch : List Earthquake} {q : Earthquake}
    (hq : q ∈ batch) :
    q.earthquakeId ∈ (mergeQuakes store batch).1.map Earthquake.earthquakeId := by
  unfold mergeQuakes
  by_cases hid : q.earthquakeId ∈ store.map Earthquake.earthquakeId
  · dsimp only
    split
    · rcases List.mem_map.mp hid with ⟨s, hs, hsid⟩
      exact List.mem_map.mpr ⟨s, mem_sortByTimestampDesc.mpr (List.mem_append.mpr (Or.inl hs)), hsid⟩
    · exact hid
  · have hmemf : q ∈ batch.filter
        (fun q => decide (q.earthquakeId ∉ store.map Earthquake.earthquakeId)) :=
      List.mem_filter.mpr ⟨hq, by simpa using hid⟩
    dsimp only
    split
    · exact List.mem_map.mpr
        ⟨q, mem_sortByTimestampDesc.mpr (List.mem_append.mpr (Or.inr hmemf)), rfl⟩
    · next hlen =>
      exact absurd (List.length_pos.mpr (List.ne_nil_of_mem hmemf)) hlen

/-- When nothing in the batch is new, the merge leaves the store untouched
and reports an empty newly-added list. -/
theorem mergeQuakes_no_new {store B : List Earthquake}
    (h : B.filter (fun q => decide (q.earthquakeId ∉ store.map Earthquake.earthquakeId)) = []) :
    mergeQuakes store B = (store, []) := by
  unfold mergeQuakes
  dsimp only
  rw [h]
  simp

/-- Claim C1: the merge is idempotent.  For every store `S` and batch `B`,
merging `B` a second time into the store produced by the first merge yields
an empty newly-added list and leaves the store unchanged. -/
theorem merge_idempotent (S B : List Earthquake) :
    (mergeQuakes (mergeQuakes S B).1 B).2 = [] ∧
    (mergeQuakes (mergeQuakes S B).1 B).1 = (mergeQuakes S B).1 := by
  have hfilter : B.filter
      (fun q => decide (q.earthquakeId ∉ (mergeQuakes S B).1.map Earthquake.earthquakeId)) = [] := by
    rw [List.filter_eq_nil_iff]
    intro q hq
    simpa using @mem_ids_mergeQuakes S B q hq
  rw [mergeQuakes_no_new hfilter]
  exact ⟨rfl, rfl⟩

/-- The tuple of machine values carried by the wire format of
`src/lib/earthquake-encoding.ts` (`string earthquakeId, string location,
uint16 magnitude, uint32 depth, int32 latitude, int32 longitude,
uint64 timestamp, string url`).  The ABI byte serialization itself is
library code (viem / SchemaEncoder) and is treated as opaque. -/
structure RawRecord where
  earthquakeId : String
  location : String
  magnitude : ℕ
  depth : ℕ
  latitude : ℤ
  longitude : ℤ
  timestamp : ℕ
  url : String
deriving DecidableEq

/-- The field scaling both branches of `decodeEarthquake` apply to the raw
tuple: `magnitude / 10`, `depth / 1000`, `latitude / 1000000`,
`longitude / 1000000`. -/
def rawToQuake (r : RawRecord) : Earthquake :=
  { earthquakeId := r.earthquakeId
    location := r.location
    magnitude := (r.magnitude : ℚ) / 10
    depth := (r.depth : ℚ) / 1000
    latitude := (r.latitude : ℚ) / 1000000
    longitude := (r.longitude : ℚ) / 1000000
    timestamp := (r.timestamp : ℤ)
    url := r.url }

/-- An opaque byte payload, described by the outcome of the two decode
strategies on it: `primaryResult` is what `encoder.decode` (SchemaEncoder)
yields (`none` when it throws), `fallbackResult` what viem's
`decodeAbiParameters` yields (`none` when it throws). -/
structure Payload where
  primaryResult : Option RawRecord
  fallbackResult : Option RawRecord
deriving DecidableEq

/-- `decodeEarthquake` from `src/lib/earthquake-encoding.ts`: try the
SchemaEncoder strategy; on any failure fall back to the viem strategy; if
both fail the error propagates to the caller (`none`). -/
def decodeEarthquake (p : Payload) : Option Earthquake :=
  match p.primaryResult with
  | some r => some (rawToQuake r)
  | none =>
    match p.fallbackResult with
    | some r => some (rawToQuake r)
    | none => none

/-- A batch-decoding loop with a per-record try/catch, as in
`refetchAndMerge` and `fetchInitialQuakes`: a record that fails to decode
is skipped, the rest of the batch is processed. -/
def decodeBatch (entries : List Payload) : List Earthquake :=
  entries.filterMap decodeEarthquake

/-- Claim C9: the codec tries the primary strategy first, falls back to the
secondary on failure, errors only when both fail, and a batch loop skips
exactly the failing record. -/
theorem codec_fallback :
    (∀ p r, p.primaryResult = some r → decodeEarthquake p = some (rawToQuake r)) ∧
    (∀ p r, p.primaryResult = none → p.fallbackResult = some r →
      decodeEarthquake p = some (rawToQuake r)) ∧
    (∀ p, p.primaryResult = none → p.fallbackResult = none → decodeEarthquake p = none) ∧
    (∀ (xs ys : List Payload) (bad : Payload), decodeEarthquake bad = none →
      decodeBatch (xs ++ bad :: ys) = decodeBatch xs ++ decodeBatch ys) := by
  refine ⟨?_, ?_, ?_, ?_⟩
  · intro p r h
    simp [decodeEarthquake, h]
  · intro p r h1 h2
    simp [decodeEarthquake, h1, h2]
  · intro p h1 h2
    simp [decodeEarthquake, h1, h2]
  · intro xs ys bad h
    simp [decodeBatch, List.filterMap_append, h]

/-- Closed instance of `codec_fallback` at concrete payloads. -/
theorem codec_fallback_witness :
    decodeEarthquake ⟨none, some ⟨"w", "loc", 58, 10500, 35451200, -117653400, 1700000000000, "u"⟩⟩ =
      some (rawToQuake ⟨"w", "loc", 58, 10500, 35451200, -117653400, 1700000000000, "u"⟩) ∧
    decodeBatch [⟨none, none⟩] = [] := by
  constructor
  · exact codec_fallback.2.1 ⟨none, some _⟩ _ rfl rfl
  · exact codec_fallback.2.2.2 [] [] ⟨none, none⟩ rfl

/-- `encodeEarthquake` from `src/lib/earthquake-encoding.ts`: scales each
numeric field with `Math.floor` (`floor(magnitude * 10)` as `uint16`,
`floor(depth * 1000)` as `uint32`, `floor(latitude * 1000000)` and
`floor(longitude * 1000000)` as `int32`, `timestamp` as `uint64`) and hands
the tuple to the schema encoder, which fails on out-of-range values. -/
def encodeEarthquake (q : Earthquake) : Option RawRecord :=
  let m := ⌊q.magnitude * 10⌋
  let d := ⌊q.depth * 1000⌋
  let la := ⌊q.latitude * 1000000⌋
  let lo := ⌊q.longitude * 1000000⌋
  if 0 ≤ m ∧ m < 2 ^ 16 ∧ 0 ≤ d ∧ d < 2 ^ 32 ∧
      -(2 ^ 31) ≤ la ∧ la < 2 ^ 31 ∧ -(2 ^ 31) ≤ lo ∧ lo < 2 ^ 31 ∧
      0 ≤ q.timestamp ∧ q.timestamp < 2 ^ 64 then
    some ⟨q.earthquakeId, q.location, m.toNat, d.toNat, la, lo, q.timestamp.toNat, q.url⟩
  else
    none

/-- Encoding followed by decoding of the stored tuple. -/
def roundTrip (q : Earthquake) : Option Earthquake :=
  (encodeEarthquake q).map rawToQuake

/-- Each numeric field floored to the grid the wire format can represent. -/
def floorToGrid (q : Earthquake) : Earthquake :=
  { q with
    magnitude := ((⌊q.magnitude * 10⌋ : ℤ) : ℚ) / 10
    depth := ((⌊q.depth * 1000⌋ : ℤ) : ℚ) / 1000
    latitude := ((⌊q.latitude * 1000000⌋ : ℤ) : ℚ) / 1000000
    longitude := ((⌊q.longitude * 1000000⌋ : ℤ) : ℚ) / 1000000 }

/-- Claim C10: for in-range records the round trip returns the record with
every numeric field floored to its storage grid, and for records already on
the grids (magnitude a multiple of 1/10, depth of 1/1000, latitude and
longitude of 1/1000000) it returns the record itself. -/
theorem encode_decode_roundTrip (q : Earthquake)
    (hm0 : 0 ≤ ⌊q.magnitude * 10⌋) (hm1 : ⌊q.magnitude * 10⌋ < 2 ^ 16)
    (hd0 : 0 ≤ ⌊q.depth * 1000⌋) (hd1 : ⌊q.depth * 1000⌋ < 2 ^ 32)
    (hla0 : -(2 ^ 31) ≤ ⌊q.latitude * 1000000⌋) (hla1 : ⌊q.latitude * 1000000⌋ < 2 ^ 31)
    (hlo0 : -(2 ^ 31) ≤ ⌊q.longitude * 1000000⌋) (hlo1 : ⌊q.longitude * 1000000⌋ < 2 ^ 31)
    (ht0 : 0 ≤ q.timestamp) (ht1 : q.timestamp < 2 ^ 64) :
    roundTrip q = some (floorToGrid q) ∧
    ((∃ a : ℕ, q.magnitude = (a : ℚ) / 10) → (∃ b : ℕ, q.depth = (b : ℚ) / 1000) →
      (∃ c : ℤ, q.latitude = (c : ℚ) / 1000000) → (∃ d : ℤ, q.longitude = (d : ℚ) / 1000000) →
      roundTrip q = some q) := by
  have henc : encodeEarthquake q =
      some ⟨q.earthquakeId, q.location, ⌊q.magnitude * 10⌋.toNat, ⌊q.depth * 1000⌋.toNat,
        ⌊q.latitude * 1000000⌋, ⌊q.longitude * 1000000⌋, q.timestamp.toNat, q.url⟩ := by
    unfold encodeEarthquake
    dsimp only
    rw [if_pos]
    exact ⟨hm0, hm1, hd0, hd1, hla0, hla1, hlo0, hlo1, ht0, ht1⟩
  have hfloor : roundTrip q = some (floorToGrid q) := by
    rw [roundTrip, henc, Option.map_some']
    congr 1
    unfold rawToQuake floorToGrid
    have hmn : ((⌊q.magnitude * 10⌋.toNat : ℚ)) = ((⌊q.magnitude * 10⌋ : ℤ) : ℚ) := by
      rw [← Int.cast_natCast, Int.toNat_of_nonneg hm0]
    have hdn : ((⌊q.depth * 1000⌋.toNat : ℚ)) = ((⌊q.depth * 1000⌋ : ℤ) : ℚ) := by
      rw [← Int.cast_natCast, Int.toNat_of_nonneg hd0]
    have htn : ((q.timestamp.toNat : ℤ)) = q.timestamp := Int.toNat_of_nonneg ht0
    simp [hmn, hdn, htn]
  refine ⟨hfloor, fun hm hd hla hlo => ?_⟩
  rw [hfloor]
  congr 1
  obtain ⟨a, ha⟩ := hm
  obtain ⟨b, hb⟩ := hd
  obtain ⟨c, hc⟩ := hla
  obtain ⟨d, hd⟩ := hlo
  have hag : q.magnitude * 10 = (a : ℚ) := by rw [ha]; ring
  have hbg : q.depth * 1000 = (b : ℚ) := by rw [hb]; ring
  have hcg : q.latitude * 1000000 = (c : ℚ) := by rw [hc]; ring
  have hdg : q.longitude * 1000000 = (d : ℚ) := by rw [hd]; ring
  have f1 : ⌊q.magnitude * 10⌋ = (a : ℤ) := by rw [hag]; exact Int.floor_natCast a
  have f2 : ⌊q.depth * 1000⌋ = (b : ℤ) := by rw [hbg]; exact Int.floor_natCast b
  have f3 : ⌊q.latitude * 1000000⌋ = c := by rw [hcg]; exact Int.floor_intCast c
  have f4 : ⌊q.longitude * 1000000⌋ = d := by rw [hdg]; exact Int.floor_intCast d
  have ec1 : ((⌊q.magnitude * 10⌋ : ℤ) : ℚ) / 10 = q.magnitude := by
    rw [f1, ha]; push_cast; ring
  have ec2 : ((⌊q.depth * 1000⌋ : ℤ) : ℚ) / 1000 = q.depth := by
    rw [f2, hb]; push_cast; ring
  have ec3 : ((⌊q.latitude * 1000000⌋ : ℤ) : ℚ) / 1000000 = q.latitude := by
    rw [f3, hc]
  have ec4 : ((⌊q.longitude * 1000000⌋ : ℤ) : ℚ) / 1000000 = q.longitude := by
    rw [f4, hd]
  unfold floorToGrid
  rw [ec1, ec2, ec3, ec4]

/-- Closed instance of `encode_decode_roundTrip`: a record on all four grids
survives the round trip unchanged. -/
theorem encode_decode_roundTrip_witness :
    roundTrip ⟨"w", "loc", 58 / 10, 10500 / 1000, 35451200 / 1000000,
      -117653400 / 1000000, 1700000000000, "u"⟩ =
    some ⟨"w", "loc", 58 / 10, 10500 / 1000, 35451200 / 1000000,
      -117653400 / 1000000, 1700000000000, "u"⟩ := by
  exact (encode_decode_roundTrip _ (by norm_num) (by norm_num) (by norm_num) (by norm_num)
    (by norm_num) (by norm_num) (by norm_num) (by norm_num) (by norm_num) (by norm_num)).2
    ⟨58, by norm_num⟩ ⟨10500, by norm_num⟩ ⟨35451200, by norm_num⟩ ⟨-117653400, by norm_num⟩

/-- The mutable state of the subscription effect in the final iteration of
`useEarthquakes`: `currentEarthquakes` and the `currentIndex` cursor. -/
structure HookState where
  store : List Earthquake
  cursor : ℕ
deriving DecidableEq

/-- The observable outcome of one handler invocation: the state afterwards,
the arguments of the `onNewEarthquake` calls it made, whether it called
`onEarthquakesUpdate`, and whether it invoked `refetchAndMerge` as a
fallback. -/
structure StepResult where
  state : HookState
  newRecordCbs : List Earthquake
  storeCb : Bool
  invokedCatchUp : Bool
deriving DecidableEq

/-- `refetchAndMerge` from the final hook iteration (the catch-up
reconciler).  `countRes` is the outcome of
`totalPublisherDataForSchema` (`none` when it throws), `rangeRes` the
outcome of `getBetweenRange` over `currentIndex .. total - 1` (`none` when
it throws or returns an `Error`).  Decode failures inside the batch skip
the single record; the cursor is set to the observed total only after the
merge. -/
def refetchAndMerge (minMagnitude : ℚ) (st : HookState)
    (countRes : Option ℕ) (rangeRes : Option (List Payload)) : StepResult :=
  match countRes with
  | none => ⟨st, [], false, false⟩
  | some totalOnChain =>
    if totalOnChain = 0 ∨ totalOnChain ≤ st.cursor then ⟨st, [], false, false⟩
    else
      match rangeRes with
      | none => ⟨st, [], false, false⟩
      | some missedData =>
        if missedData.length = 0 then ⟨st, [], false, false⟩
        else
          let missedQuakes :=
            (decodeBatch missedData).filter (fun q => decide (minMagnitude ≤ q.magnitude))
          let merged := mergeQuakes st.store missedQuakes
          ⟨⟨merged.1, totalOnChain⟩, [], decide (0 < merged.2.length), false⟩

/-- What the final `onData` handler receives, after the transport layer:
either an early-return condition, an ABI-decoding failure (caught by the
outer catch), or the single bundled payload from the `getAtIndex` ethCall. -/
inductive NotifyData
  | noSimResults
  | emptyBytes
  | abiFail
  | bundled (p : Payload)
deriving DecidableEq

/-- The `onData` handler of the final hook iteration.  A bundled record
that fails both decode strategies throws into the outer catch, which only
logs: the notification is dropped without any fallback.  A decoded record
advances the cursor by one whether it is filtered out, a duplicate, or
genuinely new; only a genuinely new record mutates the store and fires the
callbacks. -/
def onData (minMagnitude : ℚ) (isSubscribed : Bool) (st : HookState)
    (d : NotifyData) : StepResult :=
  match d with
  | .noSimResults => ⟨st, [], false, false⟩
  | .emptyBytes => ⟨st, [], false, false⟩
  | .abiFail => ⟨st, [], false, false⟩
  | .bundled p =>
    match decodeEarthquake p with
    | none => ⟨st, [], false, false⟩
    | some quake =>
      if quake.magnitude < minMagnitude then
        ⟨⟨st.store, st.cursor + 1⟩, [], false, false⟩
      else if !isSubscribed then
        ⟨st, [], false, false⟩
      else if quake.earthquakeId ∈ st.store.map Earthquake.earthquakeId then
        ⟨⟨st.store, st.cursor + 1⟩, [], false, false⟩
      else
        ⟨⟨sortByTimestampDesc (st.store ++ [quake]), st.cursor + 1⟩, [quake], true, false⟩

/-- What the intermediate hook iteration's `onData` receives: its ethCall
bundles the full `getAllPublisherDataForSchema` snapshot. -/
inductive NotifyDataBatch
  | noSimResults
  | emptyBytes
  | processFail
  | bundled (ps : List Payload)
deriving DecidableEq

/-- The `onData` handler of the intermediate hook iteration (full-snapshot
ethCall, no cursor).  Its outer catch falls back to `refetchAndMerge`; on a
merge that adds records it fires `onEarthquakesUpdate` and a single
`onNewEarthquake` with `newQuakes[0]`. -/
def onDataBatch (minMagnitude : ℚ) (isSubscribed : Bool) (st : HookState)
    (d : NotifyDataBatch) : StepResult :=
  match d with
  | .noSimResults => ⟨st, [], false, false⟩
  | .emptyBytes => ⟨st, [], false, false⟩
  | .processFail => ⟨st, [], false, true⟩
  | .bundled ps =>
    let earthquakes :=
      sortByTimestampDesc ((decodeBatch ps).filter (fun q => decide (minMagnitude ≤ q.magnitude)))
    if 0 < earthquakes.length ∧ isSubscribed = true then
      let merged := mergeQuakes st.store earthquakes
      if 0 < merged.2.length then
        ⟨⟨merged.1, st.cursor⟩, merged.2.take 1, true, false⟩
      else
        ⟨st, [], false, false⟩
    else
      ⟨st, [], false, false⟩

/-- `fetchInitialQuakes` (bulk loader): when `count()` succeeds, fetch every
index, skip entries that fail to fetch or decode, filter by magnitude and
sort newest-first; on failure return `[]`. -/
def fetchInitialQuakes (minMagnitude : ℚ) (countOk : Bool) (remote : List Payload) :
    List Earthquake :=
  if countOk then
    sortByTimestampDesc ((decodeBatch remote).filter (fun q => decide (minMagnitude ≤ q.magnitude)))
  else
    []

/-- The observable startup events of the subscription effect, in the order
the promise chain produces them. -/
inductive StartupEvent
  | bulkLoadCompleted
  | cursorInitialized (c : ℕ)
  | subscriptionStarted
deriving DecidableEq

/-- The startup sequence of the final hook iteration: run
`fetchInitialQuakes` to completion, store its result, then fetch a fresh
`totalPublisherDataForSchema` and set `currentIndex` to it (`0` when that
fetch fails, as the cursor starts at `0`), and only then call
`setupSubscription`.  `initCountRes` is the outcome of the second count
call. -/
def startup (minMagnitude : ℚ) (countOk : Bool) (remote : List Payload)
    (initCountRes : Option ℕ) : HookState × List StartupEvent :=
  let quakes := fetchInitialQuakes minMagnitude countOk remote
  let cursor := initCountRes.getD 0
  (⟨quakes, cursor⟩,
   [.bulkLoadCompleted, .cursorInitialized cursor, .subscriptionStarted])

/-- An operation of the live phase (after startup): a delivered
notification or a catch-up trigger (post-reconnect or staleness). -/
inductive LiveOp
  | notify (isSubscribed : Bool) (d : NotifyData)
  | catchUp (countRes : Option ℕ) (rangeRes : Option (List Payload))
deriving DecidableEq

/-- State transition of one live operation. -/
def stepLive (minMagnitude : ℚ) (st : HookState) : LiveOp → HookState
  | .notify isSub d => (onData minMagnitude isSub st d).state
  | .catchUp c r => (refetchAndMerge minMagnitude st c r).state

/-- A whole live run. -/
def runLive (minMagnitude : ℚ) (st : HookState) (ops : List LiveOp) : HookState :=
  ops.foldl (stepLive minMagnitude) st

/-- A sample raw record (magnitude 5.8 after scaling). -/
def rawA : RawRecord := ⟨"a", "locA", 58, 10500, 35451200, -117653400, 1700000000000, "u"⟩

/-- The sample record as decoded. -/
def qA : Earthquake := rawToQuake rawA

/-- A payload whose primary strategy decodes to `qA`. -/
def pA : Payload := ⟨some rawA, none⟩

/-- Exhaustive description of how one live operation moves the cursor:
unchanged, advanced by one by a decoded bundled notification, or set to the
observed remote total by a successful catch-up over a non-empty range. -/
theorem stepLive_cursor_cases (minMagnitude : ℚ) (st : HookState) (op : LiveOp) :
    (stepLive minMagnitude st op).cursor = st.cursor ∨
    ((∃ isSub p q, op = LiveOp.notify isSub (NotifyData.bundled p) ∧
        decodeEarthquake p = some q) ∧
      (stepLive minMagnitude st op).cursor = st.cursor + 1) ∨
    (∃ t missed, op = LiveOp.catchUp (some t) (some missed) ∧
      st.cursor < t ∧ 0 < missed.length ∧ (stepLive minMagnitude st op).cursor = t) := by
  cases op with
  | notify isSub d =>
    cases d with
    | noSimResults => exact Or.inl rfl
    | emptyBytes => exact Or.inl rfl
    | abiFail => exact Or.inl rfl
    | bundled p =>
      cases hdec : decodeEarthquake p with
      | none => simp [stepLive, onData, hdec]
      | some quake =>
        simp only [stepLive, onData, hdec]
        split_ifs with h1 h2 h3
        · exact Or.inr (Or.inl ⟨⟨isSub, p, quake, rfl, hdec⟩, rfl⟩)
        · exact Or.inl rfl
        · exact Or.inr (Or.inl ⟨⟨isSub, p, quake, rfl, hdec⟩, rfl⟩)
        · exact Or.inr (Or.inl ⟨⟨isSub, p, quake, rfl, hdec⟩, rfl⟩)
  | catchUp c r =>
    cases c with
    | none => exact Or.inl rfl
    | some t =>
      simp only [stepLive, refetchAndMerge]
      split_ifs with h1
      · exact Or.inl rfl
      · cases r with
        | none => exact Or.inl rfl
        | some missed =>
          simp only
          split_ifs with h2
          · exact Or.inl rfl
          · push_neg at h1
            exact Or.inr (Or.inr ⟨t, missed, rfl, h1.2, Nat.pos_of_ne_zero h2, rfl⟩)

/-- The cursor never decreases across one live operation. -/
theorem stepLive_cursor_mono (minMagnitude : ℚ) (st : HookState) (op : LiveOp) :
    st.cursor ≤ (stepLive minMagnitude st op).cursor := by
  rcases stepLive_cursor_cases minMagnitude st op with h | ⟨_, h⟩ | ⟨t, missed, _, hlt, _, h⟩
  · omega
  · omega
  · omega

/-- Counterexample to claim C2: a delivered bundled notification — neither
a catch-up reconciliation nor the bulk load — advances the cursor. -/
theorem cursor_advances_on_notification :
    (stepLive 2 ⟨[], 5⟩ (LiveOp.notify true (NotifyData.bundled pA))).cursor = 6 ∧
    (⟨[], 5⟩ : HookState).cursor = 5 := by
  refine ⟨?_, rfl⟩
  norm_num [stepLive, onData, pA, decodeEarthquake, rawToQuake, rawA]

/-- Claim C2 (amended): the cursor is non-decreasing over any live run, and
a single operation changes it only through a successful catch-up over a
non-empty range (setting it to the observed total) or through a bundled
notification whose payload decoded, which advances it by exactly one (even
when the record is filtered out or a duplicate); it never changes on a
failed or partial fetch. -/
theorem cursor_monotone_amended :
    (∀ (minMagnitude : ℚ) (st : HookState) (ops : List LiveOp),
      st.cursor ≤ (runLive minMagnitude st ops).cursor) ∧
    (∀ (minMagnitude : ℚ) (st : HookState) (op : LiveOp),
      (stepLive minMagnitude st op).cursor ≠ st.cursor →
      ((∃ isSub p q, op = LiveOp.notify isSub (NotifyData.bundled p) ∧
          decodeEarthquake p = some q) ∧
        (stepLive minMagnitude st op).cursor = st.cursor + 1) ∨
      (∃ t missed, op = LiveOp.catchUp (some t) (some missed) ∧
        st.cursor < t ∧ 0 < missed.length ∧ (stepLive minMagnitude st op).cursor = t)) := by
  constructor
  · intro minMagnitude st ops
    induction ops generalizing st with
    | nil => exact le_refl _
    | cons op ops ih =>
      exact le_trans (stepLive_cursor_mono minMagnitude st op) (ih (stepLive minMagnitude st op))
  · intro minMagnitude st op hne
    rcases stepLive_cursor_cases minMagnitude st op with h | h | h
    · exact absurd h hne
    · exact Or.inl h
    · exact Or.inr h

/-- Closed instance of `cursor_monotone_amended` at concrete inputs. -/
theorem cursor_monotone_amended_witness :
    5 ≤ (runLive 2 ⟨[], 5⟩ [LiveOp.notify true (NotifyData.bundled pA)]).cursor ∧
    (((∃ isSub p q, LiveOp.notify true (NotifyData.bundled pA) =
          LiveOp.notify isSub (NotifyData.bundled p) ∧ decodeEarthquake p = some q) ∧
        (stepLive 2 ⟨[], 5⟩ (LiveOp.notify true (NotifyData.bundled pA))).cursor = 5 + 1) ∨
      (∃ t missed, LiveOp.notify true (NotifyData.bundled pA) =
          LiveOp.catchUp (some t) (some missed) ∧
        5 < t ∧ 0 < missed.length ∧
        (stepLive 2 ⟨[], 5⟩ (LiveOp.notify true (NotifyData.bundled pA))).cursor = t)) := by
  exact ⟨cursor_monotone_amended.1 2 ⟨[], 5⟩ _,
    cursor_monotone_amended.2 2 ⟨[], 5⟩ _
      (by norm_num [stepLive, onData, pA, decodeEarthquake, rawToQuake, rawA])⟩

/-- Claim C8: catch-up atomicity.  When the remote total does not exceed
the cursor the reconciliation is a no-op; when the count or range fetch
fails, or the range fetch returns no data, store and cursor are unchanged;
and the cursor is never partially advanced: it ends at its old value or at
the observed total. -/
theorem catchup_atomic :
    (∀ (minMagnitude : ℚ) (st : HookState) (rangeRes : Option (List Payload)),
      (refetchAndMerge minMagnitude st none rangeRes).state = st) ∧
    (∀ (minMagnitude : ℚ) (st : HookState) (t : ℕ) (rangeRes : Option (List Payload)),
      t ≤ st.cursor → (refetchAndMerge minMagnitude st (some t) rangeRes).state = st) ∧
    (∀ (minMagnitude : ℚ) (st : HookState) (t : ℕ),
      (refetchAndMerge minMagnitude st (some t) none).state = st) ∧
    (∀ (minMagnitude : ℚ) (st : HookState) (t : ℕ),
      (refetchAndMerge minMagnitude st (some t) (some [])).state = st) ∧
    (∀ (minMagnitude : ℚ) (st : HookState) (t : ℕ) (rangeRes : Option (List Payload)),
      (refetchAndMerge minMagnitude st (some t) rangeRes).state.cursor = st.cursor ∨
      (refetchAndMerge minMagnitude st (some t) rangeRes).state.cursor = t) := by
  refine ⟨fun _ _ _ => rfl, ?_, ?_, ?_, ?_⟩
  · intro minMagnitude st t rangeRes ht
    simp only [refetchAndMerge]
    rw [if_pos (Or.inr ht)]
  · intro minMagnitude st t
    simp only [refetchAndMerge]
    split_ifs <;> rfl
  · intro minMagnitude st t
    simp only [refetchAndMerge]
    split_ifs with h1 h2
    · rfl
    · rfl
    · exact absurd rfl h2
  · intro minMagnitude st t rangeRes
    simp only [refetchAndMerge]
    split_ifs with h1
    · exact Or.inl rfl
    · cases rangeRes with
      | none => exact Or.inl rfl
      | some missed =>
        simp only
        split_ifs with h2
        · exact Or.inl rfl
        · exact Or.inr rfl

/-- Closed instance of `catchup_atomic`: a catch-up seeing a remote total
at or below the cursor changes nothing. -/
theorem catchup_atomic_witness :
    (refetchAndMerge 2 ⟨[qA], 7⟩ (some 5) (some [pA])).state = ⟨[qA], 7⟩ := by
  exact catchup_atomic.2.1 2 ⟨[qA], 7⟩ 5 (some [pA]) (by decide)

/-- Claim C3: gap repair.  With the remote log at total `10`, the cursor at
`7`, and the entries at indices `7`, `8`, `9` decoding to records that pass
the filter and are not yet in the store, one catch-up reconciliation merges
exactly those three records into the store and sets the cursor to `10`. -/
theorem gap_repair (minMagnitude : ℚ) (st : HookState)
    (p7 p8 p9 : Payload) (r7 r8 r9 : Earthquake)
    (hcur : st.cursor = 7)
    (h7 : decodeEarthquake p7 = some r7)
    (h8 : decodeEarthquake p8 = some r8)
    (h9 : decodeEarthquake p9 = some r9)
    (hm7 : minMagnitude ≤ r7.magnitude)
    (hm8 : minMagnitude ≤ r8.magnitude)
    (hm9 : minMagnitude ≤ r9.magnitude)
    (hid7 : r7.earthquakeId ∉ st.store.map Earthquake.earthquakeId)
    (hid8 : r8.earthquakeId ∉ st.store.map Earthquake.earthquakeId)
    (hid9 : r9.earthquakeId ∉ st.store.map Earthquake.earthquakeId) :
    (refetchAndMerge minMagnitude st (some 10) (some [p7, p8, p9])).state.cursor = 10 ∧
    ∀ q, q ∈ (refetchAndMerge minMagnitude st (some 10) (some [p7, p8, p9])).state.store ↔
      (q ∈ st.store ∨ q = r7 ∨ q = r8 ∨ q = r9) := by
  have hbatch : (decodeBatch [p7, p8, p9]).filter
      (fun q => decide (minMagnitude ≤ q.magnitude)) = [r7, r8, r9] := by
    simp [decodeBatch, h7, h8, h9, List.filter, hm7, hm8, hm9]
  have hmerge : mergeQuakes st.store [r7, r8, r9] =
      (sortByTimestampDesc (st.store ++ [r7, r8, r9]), [r7, r8, r9]) := by
    unfold mergeQuakes
    dsimp only
    have hf : [r7, r8, r9].filter
        (fun q => decide (q.earthquakeId ∉ st.store.map Earthquake.earthquakeId)) =
        [r7, r8, r9] := by
      simp [List.filter, hid7, hid8, hid9]
    rw [hf]
    simp
  have hcond : ¬((10 : ℕ) = 0 ∨ 10 ≤ st.cursor) := by rw [hcur]; decide
  have hstep : refetchAndMerge minMagnitude st (some 10) (some [p7, p8, p9]) =
      ⟨⟨(mergeQuakes st.store [r7, r8, r9]).1, 10⟩, [],
        decide (0 < (mergeQuakes st.store [r7, r8, r9]).2.length), false⟩ := by
    unfold refetchAndMerge
    dsimp only
    rw [if_neg hcond, if_neg (by simp : ¬([p7, p8, p9].length = 0)), hbatch]
  rw [hstep, hmerge]
  refine ⟨rfl, fun q => ?_⟩
  show q ∈ sortByTimestampDesc (st.store ++ [r7, r8, r9]) ↔ _
  rw [mem_sortByTimestampDesc]
  simp [List.mem_append, or_assoc]

/-- A concrete remote entry for index 7. -/
def raw7 : RawRecord := ⟨"r7", "l7", 30, 0, 0, 0, 300, "u7"⟩

/-- A concrete remote entry for index 8. -/
def raw8 : RawRecord := ⟨"r8", "l8", 40, 0, 0, 0, 200, "u8"⟩

/-- A concrete remote entry for index 9. -/
def raw9 : RawRecord := ⟨"r9", "l9", 50, 0, 0, 0, 100, "u9"⟩

/-- Closed instance of `gap_repair` at concrete entries. -/
theorem gap_repair_witness :
    (refetchAndMerge 2 ⟨[], 7⟩ (some 10)
        (some [⟨some raw7, none⟩, ⟨some raw8, none⟩, ⟨some raw9, none⟩])).state.cursor = 10 ∧
    (rawToQuake raw7 ∈
        (refetchAndMerge 2 ⟨[], 7⟩ (some 10)
          (some [⟨some raw7, none⟩, ⟨some raw8, none⟩, ⟨some raw9, none⟩])).state.store ↔
      (rawToQuake raw7 ∈ ([] : List Earthquake) ∨ rawToQuake raw7 = rawToQuake raw7 ∨
        rawToQuake raw7 = rawToQuake raw8 ∨ rawToQuake raw7 = rawToQuake raw9)) := by
  have h := gap_repair 2 ⟨[], 7⟩ ⟨some raw7, none⟩ ⟨some raw8, none⟩ ⟨some raw9, none⟩
    (rawToQuake raw7) (rawToQuake raw8) (rawToQuake raw9) rfl rfl rfl rfl
    (by norm_num [rawToQuake, raw7]) (by norm_num [rawToQuake, raw8])
    (by norm_num [rawToQuake, raw9]) (by simp) (by simp) (by simp)
  exact ⟨h.1, h.2 (rawToQuake raw7)⟩

/-- Counterexample to claim C4: in the final hook iteration a bundled
payload failing both decode strategies lands in a catch block that only
logs: the state is unchanged, no callback fires, and the catch-up
reconciler is not invoked — the notification is dropped. -/
theorem notify_decode_failure_dropped :
    (onData 2 true ⟨[], 0⟩ (NotifyData.bundled ⟨none, none⟩)).invokedCatchUp = false ∧
    (onData 2 true ⟨[], 0⟩ (NotifyData.bundled ⟨none, none⟩)).state = ⟨[], 0⟩ ∧
    (onData 2 true ⟨[], 0⟩ (NotifyData.bundled ⟨none, none⟩)).newRecordCbs = [] :=
  ⟨rfl, rfl, rfl⟩

/-- Claim C4 (amended): only the intermediate hook iteration's handler
falls back to the catch-up reconciler on a bundled-payload processing
failure; the final iteration's handler leaves the state unchanged and
drops the notification without invoking the reconciler. -/
theorem decode_failure_fallback_amended :
    (∀ (minMagnitude : ℚ) (isSub : Bool) (st : HookState),
      (onDataBatch minMagnitude isSub st NotifyDataBatch.processFail).invokedCatchUp = true ∧
      (onDataBatch minMagnitude isSub st NotifyDataBatch.processFail).state = st) ∧
    (∀ (minMagnitude : ℚ) (isSub : Bool) (st : HookState) (p : Payload),
      decodeEarthquake p = none →
      (onData minMagnitude isSub st (NotifyData.bundled p)).invokedCatchUp = false ∧
      (onData minMagnitude isSub st (NotifyData.bundled p)).state = st ∧
      (onData minMagnitude isSub st (NotifyData.bundled p)).newRecordCbs = []) := by
  refine ⟨fun _ _ _ => ⟨rfl, rfl⟩, ?_⟩
  intro minMagnitude isSub st p hdec
  simp [onData, hdec]

/-- Closed instance of `decode_failure_fallback_amended`. -/
theorem decode_failure_fallback_amended_witness :
    (onDataBatch 2 true ⟨[], 3⟩ NotifyDataBatch.processFail).invokedCatchUp = true ∧
    (onData 2 true ⟨[], 3⟩ (NotifyData.bundled ⟨none, none⟩)).invokedCatchUp = false ∧
    (onData 2 true ⟨[], 3⟩ (NotifyData.bundled ⟨none, none⟩)).state = ⟨[], 3⟩ :=
  ⟨(decode_failure_fallback_amended.1 2 true ⟨[], 3⟩).1,
   (decode_failure_fallback_amended.2 2 true ⟨[], 3⟩ ⟨none, none⟩ rfl).1,
   (decode_failure_fallback_amended.2 2 true ⟨[], 3⟩ ⟨none, none⟩ rfl).2.1⟩

/-- Counterexample to claim C6: the bulk load observed a count of `1` (one
remote entry), the log grew before the separate count call that seeds the
cursor, and the cursor is initialized to that second count `2` — not to the
count the bulk load observed. -/
theorem startup_cursor_from_second_count :
    (startup 2 true [pA] (some 2)).1.cursor = 2 ∧ ([pA] : List Payload).length = 1 :=
  ⟨rfl, rfl⟩

/-- Claim C6 (amended): the subscription is started only after the bulk
load has run to completion (the startup events are exactly bulk-load
completion, then cursor initialization, then subscription start), and the
cursor is initialized to the result of a fresh `count()` taken after the
bulk load (`0` when that call fails) — which coincides with the count the
bulk load observed only when the log did not change in between. -/
theorem startup_ordering_amended :
    (∀ (minMagnitude : ℚ) (countOk : Bool) (remote : List Payload)
        (initCountRes : Option ℕ),
      (startup minMagnitude countOk remote initCountRes).2 =
        [StartupEvent.bulkLoadCompleted,
         StartupEvent.cursorInitialized (initCountRes.getD 0),
         StartupEvent.subscriptionStarted] ∧
      (startup minMagnitude countOk remote initCountRes).1.cursor = initCountRes.getD 0 ∧
      (startup minMagnitude countOk remote initCountRes).1.store =
        fetchInitialQuakes minMagnitude countOk remote) ∧
    (∀ (minMagnitude : ℚ) (remote : List Payload),
      (startup minMagnitude true remote (some remote.length)).1.cursor = remote.length) :=
  ⟨fun _ _ _ _ => ⟨rfl, rfl, rfl⟩, fun _ _ => rfl⟩

/-- Counterexample to claim C7: a catch-up reconciliation that merges a
genuinely-new record into the store fires no new-record callback at all
(only the store-replaced callback). -/
theorem catchup_new_record_no_callback :
    (refetchAndMerge 2 ⟨[], 0⟩ (some 1) (some [pA])).state.store = [qA] ∧
    (refetchAndMerge 2 ⟨[], 0⟩ (some 1) (some [pA])).newRecordCbs = [] ∧
    (refetchAndMerge 2 ⟨[], 0⟩ (some 1) (some [pA])).storeCb = true := by
  have h1 : decodeBatch [pA] = [qA] := rfl
  have hmag : (2 : ℚ) ≤ qA.magnitude := by norm_num [qA, rawToQuake, rawA]
  have h2 : [qA].filter (fun q => decide (2 ≤ q.magnitude)) = [qA] := by
    simp [List.filter_cons, hmag]
  have h3 : mergeQuakes [] [qA] = ([qA], [qA]) := by
    unfold mergeQuakes
    dsimp only
    simp [sortByTimestampDesc, List.mergeSort_singleton]
  have hstep : refetchAndMerge 2 ⟨[], 0⟩ (some 1) (some [pA]) =
      ⟨⟨[qA], 1⟩, [], true, false⟩ := by
    unfold refetchAndMerge
    dsimp only
    rw [if_neg (by decide), if_neg (by simp), h1, h2, h3]
    rfl
  rw [hstep]
  exact ⟨rfl, rfl, rfl⟩

/-- Claim C7 (amended): on the bundled-notification path of the final
iteration the new-record callback fires exactly once per genuinely-new
record — when a decoded record passes the filter while subscribed and its
id is not yet in the store, the callback fires exactly once with that
record and the record is merged; it never fires when nothing was added,
and any fired record is new and in the updated store — while the catch-up
path never fires the new-record callback for the records it merges. -/
theorem new_record_callback_amended :
    (∀ (minMagnitude : ℚ) (isSub : Bool) (st : HookState) (d : NotifyData),
      ((onData minMagnitude isSub st d).state.store = st.store →
        (onData minMagnitude isSub st d).newRecordCbs = []) ∧
      (∀ q ∈ (onData minMagnitude isSub st d).newRecordCbs,
        (onData minMagnitude isSub st d).newRecordCbs = [q] ∧
        q.earthquakeId ∉ st.store.map Earthquake.earthquakeId ∧
        q ∈ (onData minMagnitude isSub st d).state.store)) ∧
    (∀ (minMagnitude : ℚ) (st : HookState) (p : Payload) (q : Earthquake),
      decodeEarthquake p = some q →
      ¬q.magnitude < minMagnitude →
      q.earthquakeId ∉ st.store.map Earthquake.earthquakeId →
      (onData minMagnitude true st (NotifyData.bundled p)).newRecordCbs = [q] ∧
      (onData minMagnitude true st (NotifyData.bundled p)).state.store =
        sortByTimestampDesc (st.store ++ [q])) ∧
    (∀ (minMagnitude : ℚ) (st : HookState) (countRes : Option ℕ)
        (rangeRes : Option (List Payload)),
      (refetchAndMerge minMagnitude st countRes rangeRes).newRecordCbs = []) := by
  refine ⟨?_, ?_, ?_⟩
  · intro minMagnitude isSub st d
    cases d with
    | noSimResults => exact ⟨fun _ => rfl, fun q hq => absurd hq (List.not_mem_nil q)⟩
    | emptyBytes => exact ⟨fun _ => rfl, fun q hq => absurd hq (List.not_mem_nil q)⟩
    | abiFail => exact ⟨fun _ => rfl, fun q hq => absurd hq (List.not_mem_nil q)⟩
    | bundled p =>
      cases hdec : decodeEarthquake p with
      | none => simp [onData, hdec]
      | some quake =>
        simp only [onData, hdec]
        split_ifs with h1 h2 h3
        · simp
        · simp
        · simp
        · constructor
          · intro hst
            exfalso
            have hlen := congrArg List.length hst
            simp only [sortByTimestampDesc, List.length_mergeSort,
              List.length_append, List.length_singleton] at hlen
            omega
          · intro q hq
            have hq1 : q = quake := List.mem_singleton.mp hq
            subst hq1
            refine ⟨rfl, h3, ?_⟩
            exact mem_sortByTimestampDesc.mpr (List.mem_append.mpr (Or.inr (List.mem_singleton.mpr rfl)))
  · intro minMagnitude st p q hdec hmag hid
    simp only [onData, hdec]
    split_ifs with h1
    · simp at h1
    · exact ⟨rfl, rfl⟩
  · intro minMagnitude st countRes rangeRes
    cases countRes with
    | none => rfl
    | some t =>
      simp only [refetchAndMerge]
      split_ifs with h1
      · rfl
      · cases rangeRes with
        | none => rfl
        | some missed =>
          simp only
          split_ifs with h2 <;> rfl

/-- Closed instance of `new_record_callback_amended`: a genuinely-new
decoded record delivered while subscribed fires the callback exactly once
with that record and is merged into the store, while a catch-up that
merges the same record fires no new-record callback. -/
theorem new_record_callback_amended_witness :
    (onData 2 true ⟨[], 0⟩ (NotifyData.bundled pA)).newRecordCbs = [qA] ∧
    (onData 2 true ⟨[], 0⟩ (NotifyData.bundled pA)).state.store =
      sortByTimestampDesc ([] ++ [qA]) ∧
    (onData 2 true ⟨[], 0⟩ NotifyData.noSimResults).newRecordCbs = [] ∧
    (refetchAndMerge 2 ⟨[], 0⟩ (some 1) (some [pA])).newRecordCbs = [] :=
  ⟨(new_record_callback_amended.2.1 2 ⟨[], 0⟩ pA qA rfl
      (by norm_num [qA, rawToQuake, rawA]) (by simp)).1,
   (new_record_callback_amended.2.1 2 ⟨[], 0⟩ pA qA rfl
      (by norm_num [qA, rawToQuake, rawA]) (by simp)).2,
   (new_record_callback_amended.1 2 true ⟨[], 0⟩ NotifyData.noSimResults).1 rfl,
   new_record_callback_amended.2.2 2 ⟨[], 0⟩ (some 1) (some [pA])⟩

/-- Sorting preserves distinctness of ids. -/
theorem sortByTimestampDesc_ids_nodup {l : List Earthquake}
    (h : (l.map Earthquake.earthquakeId).Nodup) :
    ((sortByTimestampDesc l).map Earthquake.earthquakeId).Nodup :=
  (((sortByTimestampDesc_perm l).map Earthquake.earthquakeId).nodup_iff).mpr h

/-- Filtering preserves distinctness of ids. -/
theorem filter_ids_nodup {l : List Earthquake} {p : Earthquake → Bool}
    (h : (l.map Earthquake.earthquakeId).Nodup) :
    ((l.filter p).map Earthquake.earthquakeId).Nodup :=
  List.Nodup.sublist ((List.filter_sublist l).map Earthquake.earthquakeId) h

/-- The merge keeps ids distinct when both inputs have distinct ids. -/
theorem mergeQuakes_ids_nodup {store batch : List Earthquake}
    (hs : (store.map Earthquake.earthquakeId).Nodup)
    (hb : (batch.map Earthquake.earthquakeId).Nodup) :
    ((mergeQuakes store batch).1.map Earthquake.earthquakeId).Nodup := by
  unfold mergeQuakes
  dsimp only
  split_ifs with h
  · apply sortByTimestampDesc_ids_nodup
    rw [List.map_append, List.nodup_append]
    refine ⟨hs, filter_ids_nodup hb, ?_⟩
    intro a ha hmem
    rcases List.mem_map.mp hmem with ⟨q, hq, hqa⟩
    have hnot := (List.mem_filter.mp hq).2
    rw [decide_eq_true_eq] at hnot
    exact hnot (by rw [hqa]; exact ha)
  · exact hs

/-- The notification handler keeps ids distinct (it refuses duplicates). -/
theorem onData_ids_nodup {minMagnitude : ℚ} {isSub : Bool} {st : HookState} {d : NotifyData}
    (hs : (st.store.map Earthquake.earthquakeId).Nodup) :
    (((onData minMagnitude isSub st d).state.store).map Earthquake.earthquakeId).Nodup := by
  cases d with
  | noSimResults => exact hs
  | emptyBytes => exact hs
  | abiFail => exact hs
  | bundled p =>
    cases hdec : decodeEarthquake p with
    | none => simpa [onData, hdec] using hs
    | some quake =>
      simp only [onData, hdec]
      split_ifs with h1 h2 h3
      · exact hs
      · exact hs
      · exact hs
      · apply sortByTimestampDesc_ids_nodup
        rw [List.map_append, List.nodup_append]
        refine ⟨hs, List.nodup_singleton _, ?_⟩
        intro a ha hmem
        rw [List.map_singleton, List.mem_singleton] at hmem
        exact h3 (by rw [← hmem]; exact ha)

/-- The catch-up reconciler keeps ids distinct when the fetched range has
distinct ids. -/
theorem refetchAndMerge_ids_nodup {minMagnitude : ℚ} {st : HookState}
    {countRes : Option ℕ} {rangeRes : Option (List Payload)}
    (hs : (st.store.map Earthquake.earthquakeId).Nodup)
    (hr : ∀ missed, rangeRes = some missed →
      ((decodeBatch missed).map Earthquake.earthquakeId).Nodup) :
    (((refetchAndMerge minMagnitude st countRes rangeRes).state.store).map
      Earthquake.earthquakeId).Nodup := by
  cases countRes with
  | none => exact hs
  | some t =>
    simp only [refetchAndMerge]
    split_ifs with h1
    · exact hs
    · cases rangeRes with
      | none => exact hs
      | some missed =>
        simp only
        split_ifs with h2
        · exact hs
        · exact mergeQuakes_ids_nodup hs (filter_ids_nodup (hr missed rfl))

/-- The id-uniqueness side condition a live operation inherits from the
remote log: the records decoded out of a fetched catch-up range have
pairwise-distinct ids (the log's ids are unique). -/
def opBatchNodup : LiveOp → Prop
  | .catchUp _ (some missed) => ((decodeBatch missed).map Earthquake.earthquakeId).Nodup
  | _ => True

/-- One live operation preserves distinctness of store ids. -/
theorem stepLive_ids_nodup {minMagnitude : ℚ} {st : HookState} {op : LiveOp}
    (hs : (st.store.map Earthquake.earthquakeId).Nodup)
    (hop : opBatchNodup op) :
    (((stepLive minMagnitude st op).store).map Earthquake.earthquakeId).Nodup := by
  cases op with
  | notify isSub d => exact onData_ids_nodup hs
  | catchUp c r =>
    cases r with
    | none => exact refetchAndMerge_ids_nodup hs (fun missed h => by cases h)
    | some missed =>
      exact refetchAndMerge_ids_nodup hs
        (fun missed2 h => by cases h; exact hop)

/-- Claim C5: after the startup sequence and any sequence of notification
and catch-up operations, no two records in the store share an
`earthquakeId`, provided the remote log's ids are pairwise distinct (both
as observed by the bulk load and in every fetched catch-up range). -/
theorem no_duplicate_ids (minMagnitude : ℚ) (countOk : Bool) (remote : List Payload)
    (initCountRes : Option ℕ) (ops : List LiveOp)
    (hremote : ((decodeBatch remote).map Earthquake.earthquakeId).Nodup)
    (hops : ∀ op ∈ ops, opBatchNodup op) :
    (((runLive minMagnitude (startup minMagnitude countOk remote initCountRes).1 ops).store).map
      Earthquake.earthquakeId).Nodup := by
  have hinit : ((fetchInitialQuakes minMagnitude countOk remote).map
      Earthquake.earthquakeId).Nodup := by
    unfold fetchInitialQuakes
    split_ifs
    · exact sortByTimestampDesc_ids_nodup (filter_ids_nodup hremote)
    · exact List.nodup_nil
  have hrun : ∀ (ops2 : List LiveOp) (st : HookState),
      (st.store.map Earthquake.earthquakeId).Nodup →
      (∀ op ∈ ops2, opBatchNodup op) →
      (((runLive minMagnitude st ops2).store).map Earthquake.earthquakeId).Nodup := by
    intro ops2
    induction ops2 with
    | nil => exact fun st h _ => h
    | cons op rest ih =>
      intro st h hops2
      exact ih (stepLive minMagnitude st op)
        (stepLive_ids_nodup h (hops2 op (List.mem_cons_self op rest)))
        (fun o ho => hops2 o (List.mem_cons_of_mem op ho))
  exact hrun ops (startup minMagnitude countOk remote initCountRes).1 hinit hops

/-- Closed instance of `no_duplicate_ids` at a concrete run. -/
theorem no_duplicate_ids_witness :
    (((runLive 2 (startup 2 true [pA] (some 1)).1
        [LiveOp.notify true (NotifyData.bundled pA)]).store).map
      Earthquake.earthquakeId).Nodup := by
  apply no_duplicate_ids
  · decide
  · intro op hop
    rw [List.mem_singleton] at hop
    subst hop
    exact trivial

end EarthquakeAlerts
